import Mathlib

/-!
Verification of the real-estate data restructuring pipeline
(restructure_data.py and s3_transfer.py) against its specification.

The Python source is shallowly embedded: pure helpers become Lean
functions, the per-batch database/filesystem processing becomes explicit
state passing over a database record and a list of filesystem paths, and
code that can raise exceptions is modelled with Except.  Python ints are
modelled as Int (arbitrary precision in both languages), and the
floor-division operator is modelled by Int.fdiv, which is exactly
Python's floor division.
-/

namespace Restructure

/-! ## Configuration constants (restructure_data.py lines 27-57) -/

/-- BATCH_SIZE = 2000 (restructure_data.py line 29). -/
def BATCH_SIZE : Int := 2000

/-- DEST_PARENT_DIR (restructure_data.py line 28). -/
def DEST_PARENT_DIR : String := "/home/caypro/Documents/supremePdfMapper/samepl/restructured_data"

/-- CHRDISTRICT_ENGLISH_CONST (restructure_data.py line 32). -/
def CHRDISTRICT_ENGLISH_CONST : String := "Mumbai District"

/-- DISTRICT_MAP (restructure_data.py lines 49-51). -/
def DISTRICT_MAP : List (String × String) :=
  [("मुंबई_जिल्हा", "मुंबई जिल्हा")]

/-- SRO_MAP (restructure_data.py lines 53-57). -/
def SRO_MAP : List (String × String) :=
  [("Joint_S.R._Mumbai_2_(Mumbai_City_2_(Worli))", "Joint S.R. Mumbai 2 (Mumbai City 2 (Worli))"),
   ("Joint_S.R._Mumbai_1_(Mumbai_City_1_(Fort))", "Joint S.R. Mumbai 1 (Mumbai City 1 (Fort))"),
   ("Joint_S.R._Mumbai_3_(Joint_Sub-Registrar_Mumbai_City_3)", "Joint S.R. Mumbai 3 (Joint Sub-Registrar Mumbai City 3)")]

/-- map_district: DISTRICT_MAP.get(d, d) (restructure_data.py lines 140-141). -/
def map_district (d : String) : String :=
  ((DISTRICT_MAP.find? (fun p => p.1 == d)).map (fun p => p.2)).getD d

/-- map_sro: SRO_MAP.get(s, s) (restructure_data.py lines 143-144). -/
def map_sro (s : String) : String :=
  ((SRO_MAP.find? (fun p => p.1 == s)).map (fun p => p.2)).getD s

/-! ## Identity parser (restructure_data.py lines 149-180) -/

/-- The dictionary returned by parse_folder_name. -/
structure Item where
  original_name : String
  reg_type : String
  dist : String
  sro : String
  year : String
  doc_no : Int
deriving DecidableEq, Repr

/-- Whitespace stripping as performed by Python's int() on its argument
(str.strip), implemented structurally over the character list so that
the kernel can evaluate it. -/
def pyStrip (s : String) : String :=
  String.mk (((s.toList.dropWhile Char.isWhitespace).reverse.dropWhile Char.isWhitespace).reverse)

/-- Python's int(s) applied to a folder-name token: after stripping
surrounding whitespace, an optional sign followed by one or more ASCII
digits.  (Python's int also accepts non-ASCII decimal digits and
underscores between digits; tokens produced by splitting on the
underscore delimiter cannot contain underscores, and the repository's
data uses ASCII digits, so those cases are irrelevant here.) -/
def parsePyInt (s : String) : Option Int :=
  let cs := (pyStrip s).toList
  let signDigits : Int × List Char :=
    match cs with
    | '-' :: rest => (-1, rest)
    | '+' :: rest => (1, rest)
    | _ => (1, cs)
  let sign := signDigits.1
  let ds := signDigits.2
  if ds ≠ [] ∧ ds.all Char.isDigit then
    some (sign * (ds.foldl (fun a c => 10 * a + (c.toNat - 48)) 0 : Nat))
  else none

/-- Splitting a character list on a separator character; agrees with
Python's str.split('_') (which never collapses or strips: an empty
input yields one empty token, adjacent separators yield empty tokens). -/
def splitChars (sep : Char) : List Char → List Char → List (List Char)
  | [], acc => [acc.reverse]
  | c :: rest, acc =>
      if c = sep then acc.reverse :: splitChars sep rest []
      else splitChars sep rest (c :: acc)

/-- Splitting a string on a single character, via splitChars. -/
def splitOnChar (sep : Char) (s : String) : List String :=
  (splitChars sep s.toList []).map (fun cs => String.mk cs)

/-- folder_name.split('_') (restructure_data.py line 150). -/
def splitParts (folder_name : String) : List String :=
  splitOnChar '_' folder_name

/-- The iSarita 2.0 prefix special case test
(restructure_data.py line 153). -/
def isaritaCase (folder_name : String) : Bool :=
  let parts := splitParts folder_name
  decide (parts.length > 2) && (parts.getD 0 "" == "iSarita") && (parts.getD 1 "" == "2.0")

/-- The registration-type prefix consumed by parse_folder_name
(restructure_data.py lines 153-158). -/
def regTypeOf (folder_name : String) : String :=
  if isaritaCase folder_name then "iSarita_2.0"
  else (splitParts folder_name).headD ""

/-- remaining_parts after consuming the registration-type prefix
(restructure_data.py lines 153-158). -/
def remainingOf (folder_name : String) : List String :=
  if isaritaCase folder_name then (splitParts folder_name).drop 2
  else (splitParts folder_name).drop 1

/-- parse_folder_name (restructure_data.py lines 149-180).  None models
returning Python None (a ParseFailure). -/
def parse_folder_name (folder_name : String) : Option Item :=
  let remaining := remainingOf folder_name
  if remaining.length < 4 then none
  else
    match parsePyInt (remaining.getLastD "") with
    | none => none
    | some doc =>
        some { original_name := folder_name,
               reg_type := regTypeOf folder_name,
               dist := remaining.getD 0 "" ++ "_" ++ remaining.getD 1 "",
               sro := String.intercalate "_" ((remaining.drop 2).take (remaining.length - 4)),
               year := remaining.getD (remaining.length - 2) "",
               doc_no := doc }

/-- The folder-scanning loop of main (restructure_data.py lines 372-380):
each directory name either parses into an item or bumps the skip
counter; a ParseFailure never aborts the scan. -/
def scanStep (acc : List Item × Nat) (n : String) : List Item × Nat :=
  match parse_folder_name n with
  | some it => (acc.1 ++ [it], acc.2)
  | none => (acc.1, acc.2 + 1)

/-- Folding scanStep over the listing: parsed_items and skipped after
the scan. -/
def scanFolders (names : List String) : List Item × Nat :=
  names.foldl scanStep ([], 0)

/-! ## Range batcher (restructure_data.py lines 404-423) -/

/-- logical = (doc_no - 1) // BATCH_SIZE (restructure_data.py line 409);
Python floor division is Int.fdiv. -/
def logicalIndex (doc_no : Int) : Int :=
  Int.fdiv (doc_no - 1) BATCH_SIZE

/-- range_min = logical * BATCH_SIZE + 1 (restructure_data.py line 420). -/
def rangeMinOf (logical : Int) : Int :=
  logical * BATCH_SIZE + 1

/-- range_max = (logical + 1) * BATCH_SIZE (restructure_data.py line 421). -/
def rangeMaxOf (logical : Int) : Int :=
  (logical + 1) * BATCH_SIZE

/-! ## Batch item map (restructure_data.py lines 425-440)

A batch's items dict is keyed by doc_no; Python dict insertion keeps the
first-insertion position and overwrites the value on a repeated key.  It
is modelled as an association list built by insertItem. -/

/-- Shared metadata of a batch (restructure_data.py lines 432-438). -/
structure Meta where
  dist : String
  sro : String
  year : String
  range_min : Int
  range_max : Int
deriving DecidableEq, Repr

/-- Lookup in the items dict (first entry with the key; keys are kept
distinct by insertItem). -/
def lookupItem (m : List (Int × Item)) (d : Int) : Option Item :=
  (m.find? (fun p => p.1 == d)).map (fun p => p.2)

/-- Python dict assignment m[k] = v: overwrite in place if the key is
present, else append. -/
def insertItem (m : List (Int × Item)) (k : Int) (v : Item) : List (Int × Item) :=
  if m.any (fun p => p.1 == k) then
    m.map (fun p => if p.1 == k then (k, v) else p)
  else m ++ [(k, v)]

/-- batches[bid]["items"][item["doc_no"]] = item over a listing-ordered
item list (restructure_data.py line 440). -/
def itemsMapOf (items : List Item) : List (Int × Item) :=
  items.foldl (fun m it => insertItem m it.doc_no it) []

/-! ## Gap-filling ledger builder (restructure_data.py lines 277-322) -/

/-- A row of tblongoingdocnorecords as inserted by insert_docno_record
(restructure_data.py lines 120-135); the trailing NULL/NOW() columns
carry no information and are omitted. -/
structure LedgerRow where
  intongoingid : Nat
  chrdistrict : String
  chrdistrictenglish : String
  chrregistrationtype : String
  chrsro : String
  intdocno : Int
  chryear : String
  intstartrange : Int
  intendrange : Int
  crawling_status : String
  extraction_status : String
deriving DecidableEq, Repr

/-- The doc_no values visited by the insertion loop:
range(range_min, range_max + 1) (restructure_data.py line 281). -/
def docRange (meta : Meta) : List Int :=
  (List.range (meta.range_max + 1 - meta.range_min).toNat).map
    (fun k : Nat => meta.range_min + (k : Int))

/-- The ledger row built for one doc_no of a batch
(restructure_data.py lines 281-309 and the insert on lines 319-321). -/
def buildRow (ongId : Nat) (meta : Meta) (m : List (Int × Item)) (doc : Int) : LedgerRow :=
  let vals : String × String × String × String × String :=
    match lookupItem m doc with
    | some item =>
        if item.reg_type = "iSarita_2.0" then
          ("iSarita 2.0", "Not Found", item.dist, item.sro, item.year)
        else
          (item.reg_type, "Found", item.dist, item.sro, item.year)
    | none =>
        ("iSarita 2.0", "Not Found", meta.dist, meta.sro, meta.year)
  { intongoingid := ongId,
    chrdistrict := map_district vals.2.2.1,
    chrdistrictenglish := CHRDISTRICT_ENGLISH_CONST,
    chrregistrationtype := vals.1,
    chrsro := map_sro vals.2.2.2.1,
    intdocno := doc,
    chryear := vals.2.2.2.2,
    intstartrange := meta.range_min,
    intendrange := meta.range_max,
    crawling_status := vals.2.1,
    extraction_status := "Pending" }

/-- The full sequence of ledger rows the loop builds for a batch, one
per doc_no in the range, in loop order. -/
def buildLedger (ongId : Nat) (meta : Meta) (m : List (Int × Item)) : List LedgerRow :=
  (docRange meta).map (buildRow ongId meta m)

/-! ## Database model (restructure_data.py lines 72-135)

The two tables are modelled as lists of rows; freshly allocated
intongoingid values come from a nextId counter standing for the
auto-increment sequence (which in PostgreSQL starts at 1). -/

/-- A row of tblongoingdocno as written by insert_ongoing_docno. -/
structure ParentRow where
  intongoingid : Nat
  chrdistrict : String
  chrsro : String
  intstartrange : Int
  intendrange : Int
  chryear : String
  enmstatus : String
deriving DecidableEq, Repr

/-- The database state threaded through the registrar. -/
structure Db where
  parents : List ParentRow
  records : List LedgerRow
  nextId : Nat
deriving DecidableEq, Repr

/-- check_duplicate_ongoing (restructure_data.py lines 72-89): first row
of tblongoingdocno matching the five lookup columns, if any. -/
def check_duplicate_ongoing (db : Db) (chrdistrict chrsro : String)
    (intstartrange intendrange : Int) (chryear : String) : Option Nat :=
  (db.parents.find? (fun p =>
      p.chrdistrict == chrdistrict && p.chrsro == chrsro &&
      p.intstartrange == intstartrange && p.intendrange == intendrange &&
      p.chryear == chryear)).map (fun p => p.intongoingid)

/-- insert_ongoing_docno (restructure_data.py lines 91-103): append a
parent row with a freshly allocated id and return the id. -/
def insert_ongoing_docno (db : Db) (chrdistrict chrsro : String)
    (intstartrange intendrange : Int) (chryear : String) : Db × Nat :=
  let i := db.nextId
  ({ parents := db.parents ++
        [{ intongoingid := i, chrdistrict := chrdistrict, chrsro := chrsro,
           intstartrange := intstartrange, intendrange := intendrange,
           chryear := chryear, enmstatus := "Completed Webhook Recieved" }],
     records := db.records, nextId := i + 1 }, i)

/-- check_duplicate_record (restructure_data.py lines 105-118). -/
def check_duplicate_record (db : Db) (intongoingid : Nat) (intdocno : Int) : Bool :=
  db.records.any (fun r => r.intongoingid == intongoingid && r.intdocno == intdocno)

/-- insert_docno_record (restructure_data.py lines 120-135). -/
def insert_docno_record (db : Db) (row : LedgerRow) : Db :=
  { db with records := db.records ++ [row] }

/-! ## Per-batch processing (restructure_data.py lines 185-340)

process_batch_with_db runs inside one database transaction: on any
exception it rolls the connection back to the state it had on entry and
reports failure; the filesystem is not transactional.  The filesystem is
modelled as the list of destination folder paths that exist, and the
sources of exceptions as oracles in Env: a database error during the
parent lookup/insert (parentFail), a copy-and-rename failure for an item
(copyOk, covering the whole per-item shutil.copytree/os.rename block),
and a database error while inserting a ledger row (insertFail).  An
Except error carries the filesystem state at the moment the exception is
raised, since filesystem effects survive the rollback. -/

/-- Exception oracles for one call of process_batch_with_db. -/
structure Env where
  parentFail : Bool
  copyOk : Item → Bool
  insertFail : Int → Bool

/-- The destination batch folder os.path.join(DEST_PARENT_DIR,
str(intongoingid)) (restructure_data.py line 225). -/
def batchFolderOf (intongoingid : Nat) : String :=
  DEST_PARENT_DIR ++ "/" ++ toString intongoingid

/-- The per-item destination path: the simplified folder name
{reg_type}_{doc_no} under the batch folder (restructure_data.py
lines 234-236). -/
def destPath (folder : String) (it : Item) : String :=
  folder ++ "/" ++ it.reg_type ++ "_" ++ toString it.doc_no

/-- Step 1/2 of process_batch_with_db (restructure_data.py lines
209-222): look up the parent by exact five-column match; reuse its id if
the lookup returned a truthy value (Python: a nonzero id), else insert a
new parent.  Returns (db, intongoingid, is_new_parent). -/
def parentStep (db : Db) (meta : Meta) : Db × Nat × Bool :=
  let d := map_district meta.dist
  let s := map_sro meta.sro
  match check_duplicate_ongoing db d s meta.range_min meta.range_max meta.year with
  | some i =>
      if i = 0 then
        let r := insert_ongoing_docno db d s meta.range_min meta.range_max meta.year
        (r.1, r.2, true)
      else (db, i, false)
  | none =>
      let r := insert_ongoing_docno db d s meta.range_min meta.range_max meta.year
      (r.1, r.2, true)

/-- Step 4 of process_batch_with_db (restructure_data.py lines 229-275):
copy each item folder to its destination unless it already exists; a
failed copy raises, carrying the filesystem built so far. -/
def copyLoop (env : Env) (folder : String) :
    List Item → List String → Except (String × List String) (List String)
  | [], fs => .ok fs
  | it :: rest, fs =>
      let dp := destPath folder it
      if fs.contains dp then copyLoop env folder rest fs
      else if env.copyOk it then copyLoop env folder rest (fs ++ [dp])
      else .error ("Failed to copy folder " ++ it.original_name ++ " to "
                    ++ it.reg_type ++ "_" ++ toString it.doc_no, fs)

/-- The destination paths whose copies complete before the first copy
failure (all of them if no copy fails); used to state that completed
copies survive a rollback. -/
def copiedDests (env : Env) (folder : String) :
    List Item → List String → List String
  | [], _ => []
  | it :: rest, fs =>
      let dp := destPath folder it
      if fs.contains dp then copiedDests env folder rest fs
      else if env.copyOk it then dp :: copiedDests env folder rest (fs ++ [dp])
      else []

/-- Step 5 of process_batch_with_db (restructure_data.py lines 277-322):
for each doc_no in the range build its row; when the parent already
existed, skip doc_nos whose (intongoingid, intdocno) pair is present;
otherwise insert.  Returns the database and the (inserted, skipped)
counters. -/
def recordsLoop (env : Env) (meta : Meta) (m : List (Int × Item))
    (ongId : Nat) (isNew : Bool) :
    List Int → Db → Nat → Nat → Except String (Db × Nat × Nat)
  | [], db, ins, skip => .ok (db, ins, skip)
  | doc :: rest, db, ins, skip =>
      if !isNew && check_duplicate_record db ongId doc then
        recordsLoop env meta m ongId isNew rest db ins (skip + 1)
      else if env.insertFail doc then
        .error ("insert failed for docno " ++ toString doc)
      else
        recordsLoop env meta m ongId isNew rest
          (insert_docno_record db (buildRow ongId meta m doc)) (ins + 1) skip

/-- process_batch_with_db (restructure_data.py lines 185-340).  Takes
the entry database and filesystem states and returns the final states
together with the Python return value (success, intongoingid,
error_msg).  The except branch rolls the database back to the entry
state and keeps the filesystem as it was when the exception was
raised. -/
def process_batch_with_db (env : Env) (batch_id : Nat) (meta : Meta)
    (m : List (Int × Item)) (db0 : Db) (fs0 : List String) :
    Db × List String × Bool × Option Nat × Option String :=
  let attempt : Except (String × List String) (Db × List String × Nat) :=
    if env.parentFail then
      .error ("database error in parent lookup or insert", fs0)
    else
      let pr := parentStep db0 meta
      let db1 := pr.1
      let ongId := pr.2.1
      let isNew := pr.2.2
      match copyLoop env (batchFolderOf ongId) (m.map (fun p => p.2)) fs0 with
      | .error e => .error e
      | .ok fs1 =>
          match recordsLoop env meta m ongId isNew (docRange meta) db1 0 0 with
          | .error msg => .error (msg, fs1)
          | .ok r => .ok (r.1, fs1, ongId)
  match attempt with
  | .ok r => (r.1, r.2.1, true, some r.2.2, none)
  | .error e =>
      (db0, e.2, false, none,
       some ("Error processing batch " ++ toString batch_id ++ ": " ++ e.1))

/-! ## Fail-fast batch loop of main (restructure_data.py lines 449-460) -/

/-- The loop over sorted batch ids: process each batch in order, record
(bid, success), and stop right after the first failure.  The per-batch
processing is abstracted as a state transformer procB so the theorem
covers any batch behaviour. -/
def runBatches {St : Type} (procB : Nat → St → Bool × St) :
    List Nat → St → St × List (Nat × Bool)
  | [], s => (s, [])
  | b :: rest, s =>
      let r := procB b s
      if r.1 then
        let t := runBatches procB rest r.2
        (t.1, (b, true) :: t.2)
      else (r.2, [(b, false)])

/-! ## Transfer engine (s3_transfer.py lines 157-266)

Only the decision core of transfer_folder_to_s3 is embedded: the walk
result is the files list of (local path, s3 destination) pairs, the
per-file retried upload collapses to an uploadOk oracle (its three
attempts either eventually succeed or all fail), and the post-upload
remote listing is the listing parameter.  An empty files list makes
files_to_transfer[0] raise IndexError, which the enclosing except turns
into (False, None, None). -/

/-- Failed local files collected by the upload loop
(s3_transfer.py lines 231-238). -/
def failedFilesOf (files : List (String × String)) (uploadOk : String → Bool) :
    List String :=
  (files.filter (fun p => !uploadOk p.1)).map (fun p => p.1)

/-- successful_transfers counted by the upload loop
(s3_transfer.py lines 231-238). -/
def successfulTransfersOf (files : List (String × String)) (uploadOk : String → Bool) :
    Nat :=
  (files.filter (fun p => uploadOk p.1)).length

/-- verification_failures (s3_transfer.py lines 244-251): destinations
of files not locally marked failed that are absent from the listing. -/
def verificationFailuresOf (files : List (String × String))
    (uploadOk : String → Bool) (listing : List String) : List String :=
  (files.filter (fun p => uploadOk p.1 && !listing.contains p.2)).map (fun p => p.2)

/-- os.path.dirname on an s3 key (everything before the last slash);
the keys built by the transfer engine always contain a slash. -/
def pyDirname (s : String) : String :=
  let parts := splitOnChar '/' s
  if parts.length ≤ 1 then "" else String.intercalate "/" (parts.dropLast)

/-- transfer_folder_to_s3's result computation (s3_transfer.py lines
228-261): the returned triple is (success, s3_base_path,
s3_html_file_path); s3_html_file_path is initialised to None on line 215
and never assigned, and the failed-file and verification-failure lists
are only logged. -/
def transfer_folder_to_s3 (files : List (String × String))
    (uploadOk : String → Bool) (listing : List String) :
    Bool × Option String × Option String :=
  match files with
  | [] => (false, none, none)
  | f :: _ =>
      let base := pyDirname f.2 ++ "/"
      if successfulTransfersOf files uploadOk = files.length ∧
         verificationFailuresOf files uploadOk listing = [] then
        (true, some base, none)
      else
        (false, some base, none)

/-! ## Concrete instances and derived states used by the theorems -/

/-- The example folder name from the specification. -/
def exFolder : String :=
  "Regular_मुंबई_जिल्हा_Joint_S.R._Mumbai_1_(Mumbai_City_1_(Fort))_2009_2"

/-- Environment for the C5 witness scenario: copying succeeds only for
document 1, so the copy of document 2 raises. -/
def envCopyFail : Env :=
  { parentFail := false, copyOk := fun it => decide (it.doc_no = 1),
    insertFail := fun _ => false }

/-- First source item of the witness scenarios. -/
def itemA : Item :=
  { original_name := "Regular_D_X_S_2009_1", reg_type := "Regular",
    dist := "D_X", sro := "S", year := "2009", doc_no := 1 }

/-- Second source item of the witness scenarios. -/
def itemB : Item :=
  { original_name := "Regular_D_X_S_2009_2", reg_type := "Regular",
    dist := "D_X", sro := "S", year := "2009", doc_no := 2 }

/-- Batch metadata of the witness scenarios. -/
def metaW : Meta :=
  { dist := "D_X", sro := "S", year := "2009", range_min := 1, range_max := 3 }

/-- Empty database with the sequence at 1, as PostgreSQL starts it. -/
def dbW : Db := { parents := [], records := [], nextId := 1 }

/-- The parent row insert_ongoing_docno writes for a batch's
display-mapped metadata under id i. -/
def freshParentRow (meta : Meta) (i : Nat) : ParentRow :=
  { intongoingid := i,
    chrdistrict := map_district meta.dist, chrsro := map_sro meta.sro,
    intstartrange := meta.range_min, intendrange := meta.range_max,
    chryear := meta.year, enmstatus := "Completed Webhook Recieved" }

/-- Database state after the parent insert of a first run (children not
yet written). -/
def dbParentInserted (db0 : Db) (meta : Meta) : Db :=
  { parents := db0.parents ++ [freshParentRow meta db0.nextId],
    records := db0.records, nextId := db0.nextId + 1 }

/-- Database state left by a successful first run of the registrar on a
fresh batch. -/
def dbAfterFirst (db0 : Db) (meta : Meta) (m : List (Int × Item)) : Db :=
  { parents := db0.parents ++ [freshParentRow meta db0.nextId],
    records := db0.records ++ (docRange meta).map (buildRow db0.nextId meta m),
    nextId := db0.nextId + 1 }

/-- Environment without any exception: the database behaves and every
copy succeeds. -/
def envBenign : Env :=
  { parentFail := false, copyOk := fun _ => true, insertFail := fun _ => false }

/-- The later duplicate item used by the C10 witness: same doc_no as
itemB but a different registration type. -/
def itemB2 : Item :=
  { original_name := "eRegistration_D_X_S_2009_2", reg_type := "eRegistration",
    dist := "D_X", sro := "S", year := "2009", doc_no := 2 }

/-! ## Basic lemmas -/

/-- A built row carries the doc_no of its loop iteration. -/
theorem buildRow_intdocno (ongId : Nat) (meta : Meta) (m : List (Int × Item)) (doc : Int) :
    (buildRow ongId meta m doc).intdocno = doc := by
  unfold buildRow
  cases lookupItem m doc <;> rfl

/-- The doc_no column of the built ledger is exactly the loop's range. -/
theorem buildLedger_map_intdocno (ongId : Nat) (meta : Meta) (m : List (Int × Item)) :
    (buildLedger ongId meta m).map (fun r => r.intdocno) = docRange meta := by
  unfold buildLedger
  rw [List.map_map]
  have : (fun r : LedgerRow => r.intdocno) ∘ buildRow ongId meta m = id := by
    funext d
    simp [buildRow_intdocno]
  rw [this, List.map_id]

/-- Membership in the loop's doc_no range is the interval condition. -/
theorem mem_docRange (meta : Meta) (d : Int) :
    d ∈ docRange meta ↔ meta.range_min ≤ d ∧ d ≤ meta.range_max := by
  unfold docRange
  simp only [List.mem_map, List.mem_range]
  constructor
  · rintro ⟨k, hk, rfl⟩
    omega
  · rintro ⟨h1, h2⟩
    refine ⟨(d - meta.range_min).toNat, ?_, ?_⟩ <;> omega

/-- The loop's doc_no range is strictly increasing. -/
theorem docRange_pairwise (meta : Meta) :
    (docRange meta).Pairwise (· < ·) := by
  unfold docRange
  refine List.Pairwise.map _ ?_ (List.pairwise_lt_range _)
  intro a b hab
  omega

/-! ## C2: range arithmetic of the batcher -/

/-- C2: for every document_number ≥ 1 and the fixed BATCH_SIZE, the
computed logical index places document_number inside the inclusive
range [range_min, range_max]; range_max equals
range_min + BATCH_SIZE - 1; and the ranges of consecutive logical
indices are contiguous and non-overlapping. -/
theorem c2_range_arithmetic (doc_no : Int) (h : 1 ≤ doc_no) :
    rangeMinOf (logicalIndex doc_no) ≤ doc_no ∧
    doc_no ≤ rangeMaxOf (logicalIndex doc_no) ∧
    (∀ l : Int, rangeMaxOf l = rangeMinOf l + BATCH_SIZE - 1) ∧
    (∀ l : Int, rangeMinOf (l + 1) = rangeMaxOf l + 1) ∧
    (∀ l : Int, rangeMaxOf l < rangeMinOf (l + 1)) := by
  have hb : (0 : Int) ≤ 2000 := by norm_num
  have hf : logicalIndex doc_no = (doc_no - 1) / 2000 := by
    rw [logicalIndex, BATCH_SIZE, Int.fdiv_eq_ediv _ hb]
  refine ⟨?_, ?_, fun l => ?_, fun l => ?_, fun l => ?_⟩ <;>
    simp only [rangeMinOf, rangeMaxOf, BATCH_SIZE, hf] <;>
    omega

/-- Witness for C2 at document_number 4321. -/
theorem c2_range_arithmetic_witness :
    1 ≤ (4321 : Int) ∧
    (rangeMinOf (logicalIndex 4321) ≤ 4321 ∧
     (4321 : Int) ≤ rangeMaxOf (logicalIndex 4321) ∧
     (∀ l : Int, rangeMaxOf l = rangeMinOf l + BATCH_SIZE - 1) ∧
     (∀ l : Int, rangeMinOf (l + 1) = rangeMaxOf l + 1) ∧
     (∀ l : Int, rangeMaxOf l < rangeMinOf (l + 1))) :=
  ⟨by norm_num, c2_range_arithmetic 4321 (by norm_num)⟩

/-! ## C3: gap-filling is exhaustive and ordered -/

/-- C3: for every batch range and every items map (including the empty
one), the ledger-building loop yields exactly
range_max - range_min + 1 rows, their doc_no column is strictly
increasing, every doc_no of the range occurs in exactly one row, and
every row's doc_no lies in the range. -/
theorem c3_gap_filling_exhaustive (ongId : Nat) (meta : Meta) (m : List (Int × Item))
    (h : meta.range_min ≤ meta.range_max) :
    ((buildLedger ongId meta m).length : Int) = meta.range_max - meta.range_min + 1 ∧
    ((buildLedger ongId meta m).map (fun r => r.intdocno)).Pairwise (· < ·) ∧
    (∀ d : Int, meta.range_min ≤ d → d ≤ meta.range_max →
      ((buildLedger ongId meta m).map (fun r => r.intdocno)).count d = 1) ∧
    (∀ r ∈ buildLedger ongId meta m,
      meta.range_min ≤ r.intdocno ∧ r.intdocno ≤ meta.range_max) := by
  have hmap := buildLedger_map_intdocno ongId meta m
  refine ⟨?_, ?_, ?_, ?_⟩
  · have hlen : (buildLedger ongId meta m).length = (docRange meta).length := by
      rw [← hmap, List.length_map]
    rw [hlen]
    unfold docRange
    rw [List.length_map, List.length_range]
    omega
  · rw [hmap]
    exact docRange_pairwise meta
  · intro d h1 h2
    rw [hmap]
    refine List.count_eq_one_of_mem ?_ ?_
    · exact (docRange_pairwise meta).imp ne_of_lt
    · exact (mem_docRange meta d).2 ⟨h1, h2⟩
  · intro r hr
    have : r.intdocno ∈ docRange meta := by
      rw [← hmap]
      exact List.mem_map_of_mem _ hr
    exact (mem_docRange meta _).1 this

/-- Witness for C3 on the range 1-10 with present documents 1, 2 and 5. -/
theorem c3_gap_filling_exhaustive_witness :
    ({ dist := "D_X", sro := "S", year := "2009",
       range_min := 1, range_max := 10 } : Meta).range_min ≤
      ({ dist := "D_X", sro := "S", year := "2009",
         range_min := 1, range_max := 10 } : Meta).range_max ∧
    ((buildLedger 7 { dist := "D_X", sro := "S", year := "2009",
                      range_min := 1, range_max := 10 } []).length : Int) = 10 := by
  have h := c3_gap_filling_exhaustive 7
    { dist := "D_X", sro := "S", year := "2009", range_min := 1, range_max := 10 }
    [] (by norm_num)
  exact ⟨by norm_num, by rw [h.1]; norm_num⟩

/-! ## C4: Found/Not-Found status policy -/

/-- C4: for a doc_no whose document is present with a registration type
other than the iSarita 2.0 variant, the row is Found with its own
registration type; for a present document of the iSarita 2.0 variant
the row is Not Found despite being present; for an absent doc_no a row
is synthesized with registration_type iSarita 2.0, status Not Found and
the batch's shared district/sro/year metadata (display-mapped, as every
row is). -/
theorem c4_status_policy (ongId : Nat) (meta : Meta) (m : List (Int × Item))
    (d : Int) (it : Item) :
    (lookupItem m d = some it → it.reg_type ≠ "iSarita_2.0" →
      (buildRow ongId meta m d).crawling_status = "Found" ∧
      (buildRow ongId meta m d).chrregistrationtype = it.reg_type) ∧
    (lookupItem m d = some it → it.reg_type = "iSarita_2.0" →
      (buildRow ongId meta m d).crawling_status = "Not Found" ∧
      (buildRow ongId meta m d).chrregistrationtype = "iSarita 2.0") ∧
    (lookupItem m d = none →
      (buildRow ongId meta m d).crawling_status = "Not Found" ∧
      (buildRow ongId meta m d).chrregistrationtype = "iSarita 2.0" ∧
      (buildRow ongId meta m d).chrdistrict = map_district meta.dist ∧
      (buildRow ongId meta m d).chrsro = map_sro meta.sro ∧
      (buildRow ongId meta m d).chryear = meta.year) := by
  refine ⟨?_, ?_, ?_⟩
  · intro hl hne
    simp [buildRow, hl, hne]
  · intro hl he
    simp [buildRow, hl, he]
  · intro hl
    simp [buildRow, hl]

/-- Witness for C4: the spec's example batch with range 1-10 and
present documents 1 (Regular), 2 (eRegistration), 5 (iSarita 2.0):
rows 1 and 2 are Found with their own types, row 5 is Not Found despite
being present, and the absent row 7 is Not Found / iSarita 2.0 with the
batch metadata. -/
theorem c4_status_policy_witness :
    (buildRow 1 { dist := "D_X", sro := "S", year := "2009", range_min := 1, range_max := 10 }
        (itemsMapOf
          [{ original_name := "Regular_D_X_S_2009_1", reg_type := "Regular",
             dist := "D_X", sro := "S", year := "2009", doc_no := 1 },
           { original_name := "eRegistration_D_X_S_2009_2", reg_type := "eRegistration",
             dist := "D_X", sro := "S", year := "2009", doc_no := 2 },
           { original_name := "iSarita_2.0_D_X_S_2009_5", reg_type := "iSarita_2.0",
             dist := "D_X", sro := "S", year := "2009", doc_no := 5 }]) 1).crawling_status
      = "Found" ∧
    (buildRow 1 { dist := "D_X", sro := "S", year := "2009", range_min := 1, range_max := 10 }
        (itemsMapOf
          [{ original_name := "Regular_D_X_S_2009_1", reg_type := "Regular",
             dist := "D_X", sro := "S", year := "2009", doc_no := 1 },
           { original_name := "eRegistration_D_X_S_2009_2", reg_type := "eRegistration",
             dist := "D_X", sro := "S", year := "2009", doc_no := 2 },
           { original_name := "iSarita_2.0_D_X_S_2009_5", reg_type := "iSarita_2.0",
             dist := "D_X", sro := "S", year := "2009", doc_no := 5 }]) 1).chrregistrationtype
      = "Regular" ∧
    (buildRow 1 { dist := "D_X", sro := "S", year := "2009", range_min := 1, range_max := 10 }
        (itemsMapOf
          [{ original_name := "Regular_D_X_S_2009_1", reg_type := "Regular",
             dist := "D_X", sro := "S", year := "2009", doc_no := 1 },
           { original_name := "eRegistration_D_X_S_2009_2", reg_type := "eRegistration",
             dist := "D_X", sro := "S", year := "2009", doc_no := 2 },
           { original_name := "iSarita_2.0_D_X_S_2009_5", reg_type := "iSarita_2.0",
             dist := "D_X", sro := "S", year := "2009", doc_no := 5 }]) 5).crawling_status
      = "Not Found" ∧
    (buildRow 1 { dist := "D_X", sro := "S", year := "2009", range_min := 1, range_max := 10 }
        (itemsMapOf
          [{ original_name := "Regular_D_X_S_2009_1", reg_type := "Regular",
             dist := "D_X", sro := "S", year := "2009", doc_no := 1 },
           { original_name := "eRegistration_D_X_S_2009_2", reg_type := "eRegistration",
             dist := "D_X", sro := "S", year := "2009", doc_no := 2 },
           { original_name := "iSarita_2.0_D_X_S_2009_5", reg_type := "iSarita_2.0",
             dist := "D_X", sro := "S", year := "2009", doc_no := 5 }]) 7).crawling_status
      = "Not Found" ∧
    (buildRow 1 { dist := "D_X", sro := "S", year := "2009", range_min := 1, range_max := 10 }
        (itemsMapOf
          [{ original_name := "Regular_D_X_S_2009_1", reg_type := "Regular",
             dist := "D_X", sro := "S", year := "2009", doc_no := 1 },
           { original_name := "eRegistration_D_X_S_2009_2", reg_type := "eRegistration",
             dist := "D_X", sro := "S", year := "2009", doc_no := 2 },
           { original_name := "iSarita_2.0_D_X_S_2009_5", reg_type := "iSarita_2.0",
             dist := "D_X", sro := "S", year := "2009", doc_no := 5 }]) 7).chrregistrationtype
      = "iSarita 2.0" := by
  refine ⟨?_, ?_, ?_, ?_, ?_⟩
  · exact ((c4_status_policy 1 _ _ 1
      { original_name := "Regular_D_X_S_2009_1", reg_type := "Regular",
        dist := "D_X", sro := "S", year := "2009", doc_no := 1 }).1
      (by decide) (by decide)).1
  · exact ((c4_status_policy 1 _ _ 1
      { original_name := "Regular_D_X_S_2009_1", reg_type := "Regular",
        dist := "D_X", sro := "S", year := "2009", doc_no := 1 }).1
      (by decide) (by decide)).2
  · exact ((c4_status_policy 1 _ _ 5
      { original_name := "iSarita_2.0_D_X_S_2009_5", reg_type := "iSarita_2.0",
        dist := "D_X", sro := "S", year := "2009", doc_no := 5 }).2.1
      (by decide) (by decide)).1
  · exact ((c4_status_policy 1 _ _ 7
      { original_name := "iSarita_2.0_D_X_S_2009_5", reg_type := "iSarita_2.0",
        dist := "D_X", sro := "S", year := "2009", doc_no := 5 }).2.2
      (by decide)).1
  · exact ((c4_status_policy 1 _ _ 7
      { original_name := "iSarita_2.0_D_X_S_2009_5", reg_type := "iSarita_2.0",
        dist := "D_X", sro := "S", year := "2009", doc_no := 5 }).2.2
      (by decide)).2.1

/-! ## C8: parser decomposition postcondition -/

/-- C8: whenever parse_folder_name succeeds, the returned identity has
district = the first two remaining tokens joined with the delimiter,
year = the second-to-last remaining token kept as a string,
document_number = the integer parse of the last remaining token,
sro = the delimiter-join of all tokens strictly between district and
year (possibly empty), together with the consumed registration-type
prefix and the original name. -/
theorem c8_parser_decomposition (name : String) (r : Item)
    (h : parse_folder_name name = some r) :
    r.dist = (remainingOf name).getD 0 "" ++ "_" ++ (remainingOf name).getD 1 "" ∧
    r.year = (remainingOf name).getD ((remainingOf name).length - 2) "" ∧
    parsePyInt ((remainingOf name).getLastD "") = some r.doc_no ∧
    r.sro = String.intercalate "_"
      (((remainingOf name).drop 2).take ((remainingOf name).length - 4)) ∧
    r.reg_type = regTypeOf name ∧
    r.original_name = name := by
  simp only [parse_folder_name] at h
  split at h
  · exact absurd h (by simp)
  · cases hp : parsePyInt ((remainingOf name).getLastD "") with
    | none => rw [hp] at h; exact absurd h (by simp)
    | some doc =>
        rw [hp] at h
        simp only [Option.some.injEq] at h
        subst h
        exact ⟨rfl, rfl, rfl, rfl, rfl, rfl⟩

/-- Witness for C8: the specification's example folder name parses to
the stated identity, and the theorem's decomposition applies to it. -/
theorem c8_parser_decomposition_witness :
    parse_folder_name exFolder =
      some { original_name := exFolder, reg_type := "Regular",
             dist := "मुंबई_जिल्हा",
             sro := "Joint_S.R._Mumbai_1_(Mumbai_City_1_(Fort))",
             year := "2009", doc_no := 2 } ∧
    ({ original_name := exFolder, reg_type := "Regular",
       dist := "मुंबई_जिल्हा",
       sro := "Joint_S.R._Mumbai_1_(Mumbai_City_1_(Fort))",
       year := "2009", doc_no := 2 } : Item).dist =
      (remainingOf exFolder).getD 0 "" ++ "_" ++ (remainingOf exFolder).getD 1 "" :=
  ⟨by decide, (c8_parser_decomposition exFolder _ (by decide)).1⟩

/-! ## C7: parser failure condition (corrected)

The claim states that a trailing token which is a negative integer is a
ParseFailure; Python's int() accepts a leading minus sign, so such a
folder name parses successfully with a negative document_number.  The
failure condition holds with "integer" in place of "non-negative
integer". -/

/-- C7 counterexample: the folder name Regular_A_B_2009_-5 has trailing
token -5, a negative integer, yet parse_folder_name succeeds on it
(with document_number -5) instead of returning a ParseFailure as the
claim requires. -/
theorem c7_counterexample_negative_docno :
    parse_folder_name "Regular_A_B_2009_-5" =
      some { original_name := "Regular_A_B_2009_-5", reg_type := "Regular",
             dist := "A_B", sro := "", year := "2009", doc_no := -5 } ∧
    parse_folder_name "Regular_A_B_2009_-5" ≠ none := by
  refine ⟨by decide, ?_⟩
  intro h
  exact absurd (by decide : parse_folder_name "Regular_A_B_2009_-5" ≠ none) (fun hc => hc h)

/-- The scan of main produces the successfully parsed items in listing
order, and its skip count is the number of names that fail to parse —
nothing else contributes to it. -/
theorem scanFolders_spec (names : List String) :
    (scanFolders names).1 = names.filterMap parse_folder_name ∧
    (scanFolders names).2 =
      (names.filter (fun n => (parse_folder_name n).isNone)).length := by
  have haux : ∀ (names : List String) (acc : List Item × Nat),
      names.foldl scanStep acc =
        (acc.1 ++ names.filterMap parse_folder_name,
         acc.2 + (names.filter (fun n => (parse_folder_name n).isNone)).length) := by
    intro names
    induction names with
    | nil => intro acc; simp
    | cons n rest ih =>
        intro acc
        rw [List.foldl_cons, List.filterMap_cons, List.filter_cons]
        cases hp : parse_folder_name n with
        | some it => simp [scanStep, hp, ih]
        | none =>
            simp only [scanStep, hp, Option.isNone_none]
            rw [ih]
            simp [Nat.add_comm, Nat.add_assoc, Nat.add_left_comm]
  unfold scanFolders
  rw [haux]
  simp

/-- C7 (amended): parse_folder_name returns a ParseFailure exactly when
fewer than four tokens remain after the registration-type prefix or the
last remaining token does not parse as an integer (an optional sign
followed by digits, so a negative trailing token parses successfully);
and a ParseFailure is never propagated as an abort: the scan maps every
listing to its parsed items and a skip count equal to the number of
non-parsing names. -/
theorem c7_parse_failure_condition :
    (∀ name : String,
      parse_folder_name name = none ↔
        (remainingOf name).length < 4 ∨
        parsePyInt ((remainingOf name).getLastD "") = none) ∧
    (∀ names : List String,
      (scanFolders names).1 = names.filterMap parse_folder_name ∧
      (scanFolders names).2 =
        (names.filter (fun n => (parse_folder_name n).isNone)).length) := by
  constructor
  · intro name
    simp only [parse_folder_name]
    split
    · simp_all
    · cases hp : parsePyInt ((remainingOf name).getLastD "") <;> simp_all
  · exact scanFolders_spec

/-! ## C6: transfer result contract (corrected)

The success condition holds exactly as stated.  The second half of the
claim fails: transfer_folder_to_s3 returns only the triple
(success, s3_base_path, s3_html_file_path); the failed-files and
verification-failure lists are logged, never returned, so the caller
cannot recover them from the return value. -/

/-- C6 counterexample: two runs over the same two-file folder, one where
only file a fails to upload and one where only file b fails, return
exactly the same value even though their failed-file sets differ — so
the failure detail is not returned to the caller. -/
theorem c6_counterexample_detail_not_returned :
    transfer_folder_to_s3 [("a", "s3://bkt/x/a"), ("b", "s3://bkt/x/b")]
        (fun p => p == "b") [] =
      transfer_folder_to_s3 [("a", "s3://bkt/x/a"), ("b", "s3://bkt/x/b")]
        (fun p => p == "a") [] ∧
    failedFilesOf [("a", "s3://bkt/x/a"), ("b", "s3://bkt/x/b")] (fun p => p == "b") ≠
      failedFilesOf [("a", "s3://bkt/x/a"), ("b", "s3://bkt/x/b")] (fun p => p == "a") ∧
    transfer_folder_to_s3 [("a", "s3://bkt/x/a"), ("b", "s3://bkt/x/b")]
        (fun p => p == "b") [] =
      (false, some "s3://bkt/x/", none) := by
  refine ⟨by decide, ?_, by decide⟩
  intro h
  exact absurd h (by decide)

/-- C6 (amended): overall success holds exactly when
successful_transfers equals the total file count and the
verification-failure list is empty; on failure the caller receives only
(False, s3_base_path, None) — the base path is still returned, but the
failed-file and verification-failure detail is only logged. -/
theorem c6_transfer_result_contract (files : List (String × String))
    (uploadOk : String → Bool) (listing : List String) (h : files ≠ []) :
    ((transfer_folder_to_s3 files uploadOk listing).1 = true ↔
      successfulTransfersOf files uploadOk = files.length ∧
      verificationFailuresOf files uploadOk listing = []) ∧
    (transfer_folder_to_s3 files uploadOk listing).2.1 =
      some (pyDirname (files.headD ("", "")).2 ++ "/") ∧
    (transfer_folder_to_s3 files uploadOk listing).2.2 = none := by
  match files with
  | [] => exact absurd rfl h
  | f :: rest =>
      simp only [transfer_folder_to_s3, List.headD_cons]
      split
      · rename_i hc
        exact ⟨by simp [hc], rfl, rfl⟩
      · rename_i hc
        refine ⟨?_, rfl, rfl⟩
        simp only [show (false = true) = False from by simp, false_iff]
        exact hc

/-- Witness for C6 on a concrete nonempty folder where both files
upload and verify. -/
theorem c6_transfer_result_contract_witness :
    ([("a", "s3://bkt/x/a"), ("b", "s3://bkt/x/b")] : List (String × String)) ≠ [] ∧
    ((transfer_folder_to_s3 [("a", "s3://bkt/x/a"), ("b", "s3://bkt/x/b")]
        (fun _ => true) ["s3://bkt/x/a", "s3://bkt/x/b"]).1 = true ↔
      successfulTransfersOf [("a", "s3://bkt/x/a"), ("b", "s3://bkt/x/b")] (fun _ => true) =
        ([("a", "s3://bkt/x/a"), ("b", "s3://bkt/x/b")] : List (String × String)).length ∧
      verificationFailuresOf [("a", "s3://bkt/x/a"), ("b", "s3://bkt/x/b")] (fun _ => true)
        ["s3://bkt/x/a", "s3://bkt/x/b"] = []) :=
  ⟨by decide,
   (c6_transfer_result_contract [("a", "s3://bkt/x/a"), ("b", "s3://bkt/x/b")]
      (fun _ => true) ["s3://bkt/x/a", "s3://bkt/x/b"] (by decide)).1⟩

/-! ## C9: fail-fast sequential batch processing -/

/-- C9: for any per-batch behaviour, the main loop attempts exactly a
prefix of the ascending batch-id list, every attempted batch except
possibly the last succeeds, a failure-free run attempts every batch,
every unattempted batch id is larger than every attempted one, and the
final state is exactly the fold of the attempted batches over the
initial state (so batches committed before a failure remain
committed). -/
theorem c9_fail_fast {St : Type} (procB : Nat → St → Bool × St) :
    ∀ (ids : List Nat) (s0 s' : St) (res : List (Nat × Bool)),
      ids.Pairwise (· < ·) →
      runBatches procB ids s0 = (s', res) →
      res.map Prod.fst = ids.take res.length ∧
      (∀ p ∈ res.dropLast, p.2 = true) ∧
      ((∀ p ∈ res, p.2 = true) → res.map Prod.fst = ids) ∧
      (∀ b ∈ ids.drop res.length, ∀ a ∈ ids.take res.length, a < b) ∧
      s' = (res.map Prod.fst).foldl (fun s b => (procB b s).2) s0 := by
  intro ids
  induction ids with
  | nil =>
      intro s0 s' res _ h
      simp only [runBatches, Prod.mk.injEq] at h
      obtain ⟨rfl, rfl⟩ := h
      simp
  | cons b rest ih =>
      intro s0 s' res hsorted h
      simp only [runBatches] at h
      by_cases hb : (procB b s0).1
      · rw [if_pos hb] at h
        obtain ⟨s1, res1, ht⟩ :
            ∃ s1 res1, runBatches procB rest (procB b s0).2 = (s1, res1) :=
          ⟨_, _, rfl⟩
        rw [ht] at h
        simp only [Prod.mk.injEq] at h
        obtain ⟨rfl, rfl⟩ := h
        obtain ⟨ih1, ih2, ih3, ih4, ih5⟩ :=
          ih (procB b s0).2 s1 res1 (List.Pairwise.of_cons hsorted) ht
        refine ⟨?_, ?_, ?_, ?_, ?_⟩
        · simp only [List.map_cons, List.length_cons, List.take_succ_cons, ih1]
        · intro p hp
          rcases res1 with _ | ⟨q, qs⟩
          · simp at hp
          · rw [List.dropLast_cons₂, List.mem_cons] at hp
            rcases hp with rfl | hp
            · rfl
            · exact ih2 p hp
        · intro hall
          have : res1.map Prod.fst = rest :=
            ih3 (fun p hp => hall p (List.mem_cons_of_mem _ hp))
          simp [this]
        · intro c hc a ha
          simp only [List.length_cons, List.drop_succ_cons] at hc
          simp only [List.length_cons, List.take_succ_cons, List.mem_cons] at ha
          rcases ha with rfl | ha
          · exact List.rel_of_pairwise_cons hsorted
              (List.mem_of_mem_drop hc)
          · exact ih4 c hc a ha
        · simp only [List.map_cons, List.foldl_cons]
          exact ih5
      · rw [if_neg hb] at h
        simp only [Prod.mk.injEq] at h
        obtain ⟨rfl, rfl⟩ := h
        refine ⟨by simp, by simp, ?_, ?_, by simp⟩
        · intro hall
          have : (b, false).2 = true := hall (b, false) (by simp)
          simp at this
        · intro c hc a ha
          simp only [List.length_cons, List.length_nil, List.drop_succ_cons,
            List.drop_zero] at hc
          simp only [List.length_cons, List.length_nil, List.take_succ_cons,
            List.take_zero, List.mem_singleton] at ha
          subst ha
          exact List.rel_of_pairwise_cons hsorted hc

/-- Witness for C9: three batches 1, 2, 3 where batch 2 fails; only
batches 1 and 2 are attempted, in order. -/
theorem c9_fail_fast_witness :
    ([1, 2, 3] : List Nat).Pairwise (· < ·) ∧
    runBatches (fun b s => ((b != 2 : Bool), s + b)) [1, 2, 3] (0 : Nat) =
      (3, [(1, true), (2, false)]) ∧
    ([(1, true), (2, false)] : List (Nat × Bool)).map Prod.fst =
      ([1, 2, 3] : List Nat).take 2 :=
  ⟨by decide, by decide,
   (c9_fail_fast (fun b s => ((b != 2 : Bool), s + b)) [1, 2, 3] 0 3
      [(1, true), (2, false)] (by decide) (by decide)).1⟩

/-! ## Copy-loop lemmas -/

/-- Paths present before the copy loop are still present afterwards,
whether the loop finishes or raises: the filesystem only grows. -/
theorem copyLoop_mono (env : Env) (folder : String) :
    ∀ (items : List Item) (fs : List String) (d : String), d ∈ fs →
      (match copyLoop env folder items fs with
       | .ok fs' => d ∈ fs'
       | .error e => d ∈ e.2) := by
  intro items
  induction items with
  | nil => intro fs d hd; exact hd
  | cons it rest ih =>
      intro fs d hd
      simp only [copyLoop]
      by_cases hc : fs.contains (destPath folder it)
      · rw [if_pos hc]
        exact ih fs d hd
      · rw [if_neg hc]
        by_cases hok : env.copyOk it
        · rw [if_pos hok]
          exact ih (fs ++ [destPath folder it]) d (List.mem_append_left _ hd)
        · rw [if_neg hok]
          exact hd

/-- Every copy the loop completes before it raises (all of them when it
does not raise) is present in the loop's final filesystem state. -/
theorem copiedDests_mem (env : Env) (folder : String) :
    ∀ (items : List Item) (fs : List String) (d : String),
      d ∈ copiedDests env folder items fs →
      (match copyLoop env folder items fs with
       | .ok fs' => d ∈ fs'
       | .error e => d ∈ e.2) := by
  intro items
  induction items with
  | nil => intro fs d hd; simp [copiedDests] at hd
  | cons it rest ih =>
      intro fs d hd
      simp only [copiedDests] at hd
      simp only [copyLoop]
      by_cases hc : fs.contains (destPath folder it)
      · rw [if_pos hc] at hd
        rw [if_pos hc]
        exact ih fs d hd
      · rw [if_neg hc] at hd
        rw [if_neg hc]
        by_cases hok : env.copyOk it
        · rw [if_pos hok] at hd
          rw [if_pos hok]
          rw [List.mem_cons] at hd
          rcases hd with rfl | hd
          · exact copyLoop_mono env folder rest (fs ++ [destPath folder it]) _
              (List.mem_append_right _ (List.mem_singleton_self _))
          · exact ih (fs ++ [destPath folder it]) d hd
        · rw [if_neg hok] at hd
          simp at hd

/-! ## C5: per-batch atomicity with filesystem asymmetry -/

/-- C5: whenever process_batch_with_db reports failure (an exception was
raised during the parent step, the folder copying or the ledger-row
insertion), the database is exactly the entry state (full rollback), the
result carries no durable id and does carry an error message, while the
filesystem keeps everything it already had and every copy completed
before the exception. -/
theorem c5_rollback_keeps_copies (env : Env) (bid : Nat) (meta : Meta)
    (m : List (Int × Item)) (db0 : Db) (fs0 : List String)
    (db' : Db) (fs' : List String) (ok : Bool) (oid : Option Nat) (err : Option String)
    (h : process_batch_with_db env bid meta m db0 fs0 = (db', fs', ok, oid, err))
    (hfail : ok = false) :
    db' = db0 ∧ oid = none ∧ err.isSome = true ∧
    (∀ p ∈ fs0, p ∈ fs') ∧
    (env.parentFail = false →
      ∀ d ∈ copiedDests env (batchFolderOf (parentStep db0 meta).2.1)
              (m.map (fun p => p.2)) fs0, d ∈ fs') := by
  subst hfail
  simp only [process_batch_with_db] at h
  by_cases hpf : env.parentFail
  · rw [if_pos hpf] at h
    simp only [Prod.mk.injEq] at h
    obtain ⟨rfl, rfl, _, rfl, rfl⟩ := h
    refine ⟨rfl, rfl, rfl, fun p hp => hp, ?_⟩
    intro hc
    rw [hpf] at hc
    exact absurd hc (by simp)
  · rw [if_neg hpf] at h
    have hmono := copyLoop_mono env (batchFolderOf (parentStep db0 meta).2.1)
      (m.map (fun p => p.2)) fs0
    have hdests := copiedDests_mem env (batchFolderOf (parentStep db0 meta).2.1)
      (m.map (fun p => p.2)) fs0
    cases hc : copyLoop env (batchFolderOf (parentStep db0 meta).2.1)
        (m.map (fun p => p.2)) fs0 with
    | error e =>
        rw [hc] at h
        simp only [Prod.mk.injEq] at h
        obtain ⟨rfl, rfl, _, rfl, rfl⟩ := h
        refine ⟨rfl, rfl, rfl, ?_, ?_⟩
        · intro p hp
          have := hmono p hp
          rw [hc] at this
          exact this
        · intro _ d hd
          have := hdests d hd
          rw [hc] at this
          exact this
    | ok fs1 =>
        rw [hc] at h
        cases hr : recordsLoop env meta m (parentStep db0 meta).2.1
            (parentStep db0 meta).2.2 (docRange meta) (parentStep db0 meta).1 0 0 with
        | error msg =>
            rw [hr] at h
            simp only [Prod.mk.injEq] at h
            obtain ⟨rfl, rfl, _, rfl, rfl⟩ := h
            refine ⟨rfl, rfl, rfl, ?_, ?_⟩
            · intro p hp
              have := hmono p hp
              rw [hc] at this
              exact this
            · intro _ d hd
              have := hdests d hd
              rw [hc] at this
              exact this
        | ok r =>
            rw [hr] at h
            simp only [Prod.mk.injEq] at h
            obtain ⟨_, _, htrue, _, _⟩ := h
            exact absurd htrue (by simp)

/-- Witness for C5: with an empty database and filesystem, processing a
batch whose second copy fails reports failure with a rolled-back
database, and the completed first copy is still on the filesystem. -/
theorem c5_rollback_keeps_copies_witness :
    process_batch_with_db envCopyFail 1 metaW (itemsMapOf [itemA, itemB]) dbW [] =
      (dbW, [batchFolderOf 1 ++ "/Regular_1"], false, none,
       some "Error processing batch 1: Failed to copy folder Regular_D_X_S_2009_2 to Regular_2") ∧
    (batchFolderOf 1 ++ "/Regular_1") ∈ [batchFolderOf 1 ++ "/Regular_1"] :=
  ⟨by decide,
   (c5_rollback_keeps_copies envCopyFail 1 metaW (itemsMapOf [itemA, itemB]) dbW []
      dbW [batchFolderOf 1 ++ "/Regular_1"] false none
      (some "Error processing batch 1: Failed to copy folder Regular_D_X_S_2009_2 to Regular_2")
      (by decide) rfl).2.2.2.2 rfl (batchFolderOf 1 ++ "/Regular_1") (by decide)⟩

/-! ## Loop lemmas for the idempotence of the registrar -/

/-- A built row carries the durable id of its loop iteration. -/
theorem buildRow_intongoingid (ongId : Nat) (meta : Meta) (m : List (Int × Item)) (doc : Int) :
    (buildRow ongId meta m doc).intongoingid = ongId := by
  unfold buildRow
  cases lookupItem m doc <;> rfl

/-- A row built for (ongId, d) that is in the child table makes the
duplicate check for (ongId, d) succeed. -/
theorem check_duplicate_record_of_row (db : Db) (ongId : Nat) (meta : Meta)
    (m : List (Int × Item)) (d : Int)
    (h : buildRow ongId meta m d ∈ db.records) :
    check_duplicate_record db ongId d = true := by
  unfold check_duplicate_record
  rw [List.any_eq_true]
  refine ⟨buildRow ongId meta m d, h, ?_⟩
  simp [buildRow_intongoingid, buildRow_intdocno]

/-- When every copy succeeds, the copy loop returns normally, keeps
everything already present, and afterwards every item's destination
path exists. -/
theorem copyLoop_all_ok (env : Env) (folder : String)
    (henv : ∀ it : Item, env.copyOk it = true) :
    ∀ (items : List Item) (fs : List String),
      ∃ fs', copyLoop env folder items fs = .ok fs' ∧
        (∀ d ∈ fs, d ∈ fs') ∧
        (∀ it ∈ items, destPath folder it ∈ fs') := by
  intro items
  induction items with
  | nil =>
      intro fs
      exact ⟨fs, rfl, fun d hd => hd, by simp⟩
  | cons it rest ih =>
      intro fs
      by_cases hc : fs.contains (destPath folder it)
      · obtain ⟨fs', h1, h2, h3⟩ := ih fs
        refine ⟨fs', ?_, h2, ?_⟩
        · simp only [copyLoop, if_pos hc]
          exact h1
        · intro j hj
          rw [List.mem_cons] at hj
          rcases hj with rfl | hj
          · exact h2 _ (List.mem_of_elem_eq_true hc)
          · exact h3 j hj
      · obtain ⟨fs', h1, h2, h3⟩ := ih (fs ++ [destPath folder it])
        refine ⟨fs', ?_, ?_, ?_⟩
        · simp only [copyLoop, if_neg hc, henv it, if_pos]
          exact h1
        · intro d hd
          exact h2 d (List.mem_append_left _ hd)
        · intro j hj
          rw [List.mem_cons] at hj
          rcases hj with rfl | hj
          · exact h2 _ (List.mem_append_right _ (List.mem_singleton_self _))
          · exact h3 j hj

/-- When every item's destination already exists, the copy loop is a
no-op (every copy is skipped). -/
theorem copyLoop_all_present (env : Env) (folder : String) :
    ∀ (items : List Item) (fs : List String),
      (∀ it ∈ items, fs.contains (destPath folder it) = true) →
      copyLoop env folder items fs = .ok fs := by
  intro items
  induction items with
  | nil => intro fs _; rfl
  | cons it rest ih =>
      intro fs hall
      have hc : fs.contains (destPath folder it) = true :=
        hall it (List.mem_cons_self _ _)
      simp only [copyLoop, if_pos hc]
      exact ih fs (fun j hj => hall j (List.mem_cons_of_mem _ hj))

/-- On a brand-new parent the duplicate check is skipped, so with no
insertion failure the records loop inserts one row per doc_no, in loop
order, leaving the parent table and the id sequence untouched. -/
theorem recordsLoop_new (env : Env) (meta : Meta) (m : List (Int × Item)) (ongId : Nat)
    (hins : ∀ d : Int, env.insertFail d = false) :
    ∀ (docs : List Int) (db : Db) (ins skip : Nat),
      recordsLoop env meta m ongId true docs db ins skip =
        .ok ({ parents := db.parents,
               records := db.records ++ docs.map (buildRow ongId meta m),
               nextId := db.nextId }, ins + docs.length, skip) := by
  intro docs
  induction docs with
  | nil => intro db ins skip; simp [recordsLoop]
  | cons d rest ih =>
      intro db ins skip
      simp only [recordsLoop, Bool.not_true, Bool.false_and, Bool.false_eq_true,
        if_false, hins d, insert_docno_record]
      rw [ih, List.append_assoc, List.singleton_append]
      simp only [List.map_cons, List.length_cons, Except.ok.injEq, Prod.mk.injEq,
        Db.mk.injEq, true_and, and_true]
      all_goals omega

/-- On an existing parent whose child table already has every
(ongId, doc_no) pair, the records loop skips every doc_no and changes
nothing. -/
theorem recordsLoop_existing (env : Env) (meta : Meta) (m : List (Int × Item)) (ongId : Nat) :
    ∀ (docs : List Int) (db : Db) (ins skip : Nat),
      (∀ d ∈ docs, check_duplicate_record db ongId d = true) →
      recordsLoop env meta m ongId false docs db ins skip =
        .ok (db, ins, skip + docs.length) := by
  intro docs
  induction docs with
  | nil => intro db ins skip _; simp [recordsLoop]
  | cons d rest ih =>
      intro db ins skip hall
      have hd : check_duplicate_record db ongId d = true :=
        hall d (List.mem_cons_self _ _)
      simp only [recordsLoop, Bool.not_false, Bool.true_and, hd, if_true]
      rw [ih db ins (skip + 1) (fun j hj => hall j (List.mem_cons_of_mem _ hj))]
      simp only [List.length_cons, Except.ok.injEq, Prod.mk.injEq, true_and, and_true]
      all_goals omega

/-! ## C1: idempotence of the registrar -/

/-- C1: starting from a database with no parent for the batch's
(district_display, sro_display, range_min, range_max, year) tuple and
the id sequence at 1 or above, a first run of process_batch_with_db
succeeds and allocates the next id; a second run over the same source
set then finds the existing parent by exact five-column match, reuses
the same durable id, skips every (durable_id, doc_no) pair, and returns
with the database (hence zero newly inserted child rows) and filesystem
unchanged. -/
theorem c1_registrar_idempotent (env : Env) (bid1 bid2 : Nat) (meta : Meta)
    (m : List (Int × Item)) (db0 : Db) (fs0 : List String)
    (henv1 : env.parentFail = false)
    (henv2 : ∀ it : Item, env.copyOk it = true)
    (henv3 : ∀ d : Int, env.insertFail d = false)
    (hfresh : check_duplicate_ongoing db0 (map_district meta.dist) (map_sro meta.sro)
                meta.range_min meta.range_max meta.year = none)
    (hid : 1 ≤ db0.nextId) :
    ∃ fs1 : List String,
      process_batch_with_db env bid1 meta m db0 fs0 =
        (dbAfterFirst db0 meta m, fs1, true, some db0.nextId, none) ∧
      check_duplicate_ongoing (dbAfterFirst db0 meta m)
        (map_district meta.dist) (map_sro meta.sro)
        meta.range_min meta.range_max meta.year = some db0.nextId ∧
      (∀ d ∈ docRange meta,
        check_duplicate_record (dbAfterFirst db0 meta m) db0.nextId d = true) ∧
      recordsLoop env meta m db0.nextId false (docRange meta)
        (dbAfterFirst db0 meta m) 0 0 =
        .ok (dbAfterFirst db0 meta m, 0, (docRange meta).length) ∧
      process_batch_with_db env bid2 meta m (dbAfterFirst db0 meta m) fs1 =
        (dbAfterFirst db0 meta m, fs1, true, some db0.nextId, none) := by
  have hfresh' : db0.parents.find? (fun p =>
      p.chrdistrict == map_district meta.dist && p.chrsro == map_sro meta.sro &&
      p.intstartrange == meta.range_min && p.intendrange == meta.range_max &&
      p.chryear == meta.year) = none := by
    unfold check_duplicate_ongoing at hfresh
    exact Option.map_eq_none'.mp hfresh
  have hps1 : parentStep db0 meta = (dbParentInserted db0 meta, db0.nextId, true) := by
    simp [parentStep, hfresh, insert_ongoing_docno, dbParentInserted, freshParentRow]
  obtain ⟨fs1, hcl, hsub, hdests⟩ :=
    copyLoop_all_ok env (batchFolderOf db0.nextId) henv2 (m.map (fun p => p.2)) fs0
  have hr1 : recordsLoop env meta m db0.nextId true (docRange meta)
      (dbParentInserted db0 meta) 0 0 =
      .ok (dbAfterFirst db0 meta m, 0 + (docRange meta).length, 0) := by
    rw [recordsLoop_new env meta m db0.nextId henv3 (docRange meta)
      (dbParentInserted db0 meta) 0 0]
    rfl
  have hdup2 : check_duplicate_ongoing (dbAfterFirst db0 meta m)
      (map_district meta.dist) (map_sro meta.sro)
      meta.range_min meta.range_max meta.year = some db0.nextId := by
    unfold check_duplicate_ongoing dbAfterFirst
    simp only [List.find?_append, hfresh', Option.none_or]
    simp [freshParentRow]
  have hall : ∀ d ∈ docRange meta,
      check_duplicate_record (dbAfterFirst db0 meta m) db0.nextId d = true := by
    intro d hd
    refine check_duplicate_record_of_row _ db0.nextId meta m d ?_
    unfold dbAfterFirst
    exact List.mem_append_right _ (List.mem_map_of_mem _ hd)
  have hr2 : recordsLoop env meta m db0.nextId false (docRange meta)
      (dbAfterFirst db0 meta m) 0 0 =
      .ok (dbAfterFirst db0 meta m, 0, (docRange meta).length) := by
    have := recordsLoop_existing env meta m db0.nextId (docRange meta)
      (dbAfterFirst db0 meta m) 0 0 hall
    rw [Nat.zero_add] at this
    exact this
  have h0 : ¬ (db0.nextId = 0) := by omega
  have hps2 : parentStep (dbAfterFirst db0 meta m) meta =
      (dbAfterFirst db0 meta m, db0.nextId, false) := by
    simp [parentStep, hdup2, h0]
  have hcl2 : copyLoop env (batchFolderOf db0.nextId) (m.map (fun p => p.2)) fs1 =
      .ok fs1 := by
    refine copyLoop_all_present env (batchFolderOf db0.nextId) _ fs1 ?_
    intro it hit
    exact List.elem_eq_true_of_mem (hdests it hit)
  refine ⟨fs1, ?_, hdup2, hall, hr2, ?_⟩
  · simp only [process_batch_with_db, henv1, Bool.false_eq_true, if_false, hps1,
      hcl, hr1]
  · simp only [process_batch_with_db, henv1, Bool.false_eq_true, if_false, hps2,
      hcl2, hr2]

/-- Witness for C1: a concrete two-item batch over an empty database. -/
theorem c1_registrar_idempotent_witness :
    check_duplicate_ongoing dbW (map_district metaW.dist) (map_sro metaW.sro)
      metaW.range_min metaW.range_max metaW.year = none ∧
    1 ≤ dbW.nextId ∧
    (∃ fs1 : List String,
      process_batch_with_db envBenign 1 metaW (itemsMapOf [itemA, itemB]) dbW [] =
        (dbAfterFirst dbW metaW (itemsMapOf [itemA, itemB]), fs1, true,
         some dbW.nextId, none) ∧
      check_duplicate_ongoing (dbAfterFirst dbW metaW (itemsMapOf [itemA, itemB]))
        (map_district metaW.dist) (map_sro metaW.sro)
        metaW.range_min metaW.range_max metaW.year = some dbW.nextId ∧
      (∀ d ∈ docRange metaW,
        check_duplicate_record (dbAfterFirst dbW metaW (itemsMapOf [itemA, itemB]))
          dbW.nextId d = true) ∧
      recordsLoop envBenign metaW (itemsMapOf [itemA, itemB]) dbW.nextId false
        (docRange metaW) (dbAfterFirst dbW metaW (itemsMapOf [itemA, itemB])) 0 0 =
        .ok (dbAfterFirst dbW metaW (itemsMapOf [itemA, itemB]), 0,
             (docRange metaW).length) ∧
      process_batch_with_db envBenign 2 metaW (itemsMapOf [itemA, itemB])
        (dbAfterFirst dbW metaW (itemsMapOf [itemA, itemB])) fs1 =
        (dbAfterFirst dbW metaW (itemsMapOf [itemA, itemB]), fs1, true,
         some dbW.nextId, none)) :=
  ⟨by decide, by decide,
   c1_registrar_idempotent envBenign 1 2 metaW (itemsMapOf [itemA, itemB]) dbW []
     rfl (fun _ => rfl) (fun _ => rfl) (by decide) (by decide)⟩

/-! ## Items-dict lemmas (Python dict semantics of the batch item map) -/

/-- Overwriting the value at key k leaves lookups at other keys alone. -/
theorem find?_overwrite_ne (k d : Int) (v : Item) (hne : d ≠ k) :
    ∀ mm : List (Int × Item),
      (mm.map (fun p => if p.1 == k then (k, v) else p)).find? (fun p => p.1 == d) =
        mm.find? (fun p => p.1 == d) := by
  intro mm
  induction mm with
  | nil => rfl
  | cons q t ih =>
      by_cases hq : q.1 = k
      · have h1 : (q.1 == k) = true := by simp [hq]
        have h2 : (((k, v) : Int × Item).1 == d) = false := by simp [Ne.symm hne]
        have h3 : (q.1 == d) = false := by simp [hq, Ne.symm hne]
        simp only [List.map_cons, h1, if_true, List.find?, h2, h3]
        exact ih
      · have h1 : (q.1 == k) = false := by simp [hq]
        simp only [List.map_cons, h1, Bool.false_eq_true, if_false, List.find?]
        cases hqd : (q.1 == d) with
        | true => rfl
        | false => exact ih

/-- When some entry has key k, overwriting makes the lookup at k return
the new value. -/
theorem find?_overwrite_eq (k : Int) (v : Item) :
    ∀ mm : List (Int × Item), mm.any (fun p => p.1 == k) = true →
      (mm.map (fun p => if p.1 == k then (k, v) else p)).find? (fun p => p.1 == k) =
        some (k, v) := by
  intro mm
  induction mm with
  | nil => intro h; simp at h
  | cons q t ih =>
      intro h
      by_cases hq : q.1 = k
      · have h1 : (q.1 == k) = true := by simp [hq]
        have h2 : (((k, v) : Int × Item).1 == k) = true := by simp
        simp only [List.map_cons, h1, if_true, List.find?, h2]
      · have h1 : (q.1 == k) = false := by simp [hq]
        rw [List.any_cons, h1, Bool.false_or] at h
        simp only [List.map_cons, h1, Bool.false_eq_true, if_false, List.find?]
        exact ih h

/-- Python dict assignment: lookup after m[k] = v returns v at k and is
unchanged elsewhere. -/
theorem lookupItem_insertItem (mm : List (Int × Item)) (k : Int) (v : Item) (d : Int) :
    lookupItem (insertItem mm k v) d = if d = k then some v else lookupItem mm d := by
  unfold insertItem lookupItem
  by_cases hany : mm.any (fun p => p.1 == k) = true
  · rw [if_pos hany]
    by_cases hd : d = k
    · subst hd
      rw [find?_overwrite_eq d v mm hany]
      simp
    · rw [find?_overwrite_ne k d v hd mm, if_neg hd]
  · rw [if_neg hany]
    rw [List.find?_append]
    by_cases hd : d = k
    · subst hd
      have hf : mm.find? (fun p => p.1 == d) = none := by
        rw [List.find?_eq_none]
        intro p hp hbeq
        exact hany (List.any_eq_true.mpr ⟨p, hp, hbeq⟩)
      rw [hf]
      simp
    · have hf : ([((k, v) : Int × Item)].find? (fun p => p.1 == d)) = none := by
        simp [Ne.symm hd]
      rw [hf, if_neg hd]
      simp

/-- Looking up the items dict built from a listing returns the last item
of the listing with that doc_no (Python: later assignments overwrite). -/
theorem lookupItem_itemsMapOf (items : List Item) (d : Int) :
    lookupItem (itemsMapOf items) d =
      items.reverse.find? (fun it => it.doc_no == d) := by
  have haux : ∀ (items : List Item) (acc : List (Int × Item)),
      lookupItem (items.foldl (fun mm it => insertItem mm it.doc_no it) acc) d =
        (items.reverse.find? (fun it => it.doc_no == d)).or (lookupItem acc d) := by
    intro items
    induction items with
    | nil => intro acc; simp
    | cons it rest ih =>
        intro acc
        rw [List.foldl_cons, ih, List.reverse_cons, List.find?_append,
          Option.or_assoc]
        congr 1
        rw [lookupItem_insertItem]
        by_cases hd : d = it.doc_no
        · subst hd
          simp
        · have h1 : (it.doc_no == d) = false := by simp [Ne.symm hd]
          simp [h1, hd]
  rw [itemsMapOf, haux]
  simp [lookupItem]

/-- Every entry of the items dict came from the listing and is keyed by
its item's doc_no. -/
theorem mem_itemsMapOf (items : List Item) :
    ∀ p ∈ itemsMapOf items, p.2 ∈ items ∧ p.1 = p.2.doc_no := by
  have hins : ∀ (mm : List (Int × Item)) (k : Int) (v : Item) (p : Int × Item),
      p ∈ insertItem mm k v → p ∈ mm ∨ p = (k, v) := by
    intro mm k v p hp
    unfold insertItem at hp
    by_cases hany : mm.any (fun q => q.1 == k) = true
    · rw [if_pos hany] at hp
      rw [List.mem_map] at hp
      obtain ⟨q, hq, hfq⟩ := hp
      by_cases hqk : (q.1 == k) = true
      · rw [if_pos hqk] at hfq
        exact Or.inr hfq.symm
      · rw [if_neg hqk] at hfq
        exact Or.inl (hfq ▸ hq)
    · rw [if_neg hany] at hp
      rw [List.mem_append, List.mem_singleton] at hp
      exact hp
  have haux : ∀ (items : List Item) (acc : List (Int × Item)) (p : Int × Item),
      p ∈ items.foldl (fun mm it => insertItem mm it.doc_no it) acc →
      p ∈ acc ∨ (p.2 ∈ items ∧ p.1 = p.2.doc_no) := by
    intro items
    induction items with
    | nil => intro acc p hp; exact Or.inl hp
    | cons it rest ih =>
        intro acc p hp
        rw [List.foldl_cons] at hp
        rcases ih (insertItem acc it.doc_no it) p hp with hacc | hrest
        · rcases hins acc it.doc_no it p hacc with hacc' | rfl
          · exact Or.inl hacc'
          · exact Or.inr ⟨List.mem_cons_self _ _, rfl⟩
        · exact Or.inr ⟨List.mem_cons_of_mem _ hrest.1, hrest.2⟩
  intro p hp
  rcases haux items [] p hp with hacc | hgood
  · simp at hacc
  · exact hgood

/-- The items dict never has two entries with the same key. -/
theorem itemsMapOf_keys_pairwise (items : List Item) :
    (itemsMapOf items).Pairwise (fun p q => p.1 ≠ q.1) := by
  have hins : ∀ (mm : List (Int × Item)) (k : Int) (v : Item),
      mm.Pairwise (fun p q => p.1 ≠ q.1) →
      (insertItem mm k v).Pairwise (fun p q => p.1 ≠ q.1) := by
    intro mm k v hmm
    unfold insertItem
    by_cases hany : mm.any (fun q => q.1 == k) = true
    · rw [if_pos hany]
      refine List.Pairwise.map _ ?_ hmm
      intro a b hab
      by_cases ha : (a.1 == k) = true <;> by_cases hb : (b.1 == k) = true <;>
        simp only [ha, hb, if_pos, if_neg, if_true, if_false] <;>
        simp_all
    · rw [if_neg hany]
      rw [List.pairwise_append]
      refine ⟨hmm, List.pairwise_singleton _ _, ?_⟩
      intro a ha b hb
      rw [List.mem_singleton] at hb
      subst hb
      intro hak
      rw [List.any_eq_true] at hany
      exact hany ⟨a, ha, by simp [hak]⟩
  have haux : ∀ (items : List Item) (acc : List (Int × Item)),
      acc.Pairwise (fun p q => p.1 ≠ q.1) →
      (items.foldl (fun mm it => insertItem mm it.doc_no it) acc).Pairwise
        (fun p q => p.1 ≠ q.1) := by
    intro items
    induction items with
    | nil => intro acc hacc; exact hacc
    | cons it rest ih =>
        intro acc hacc
        rw [List.foldl_cons]
        exact ih _ (hins acc it.doc_no it hacc)
  exact haux items [] (List.Pairwise.nil)

/-- In a dict with pairwise-distinct keys, membership of an entry
determines the lookup at its key. -/
theorem lookupItem_of_mem (mm : List (Int × Item))
    (hnd : mm.Pairwise (fun p q => p.1 ≠ q.1)) :
    ∀ p ∈ mm, lookupItem mm p.1 = some p.2 := by
  induction mm with
  | nil => intro p hp; simp at hp
  | cons q t ih =>
      intro p hp
      rw [List.mem_cons] at hp
      rcases hp with rfl | hp
      · unfold lookupItem
        rw [List.find?_cons_of_pos _ (by simp)]
        rfl
      · have hne : q.1 ≠ p.1 := List.rel_of_pairwise_cons hnd hp
        unfold lookupItem
        rw [List.find?_cons_of_neg _ (by simp [hne])]
        exact ih (List.Pairwise.of_cons hnd) p hp

/-- A row builder only consults the items dict through lookups, so
dicts with equal lookups build equal rows. -/
theorem buildRow_congr (ongId : Nat) (meta : Meta) (m1 m2 : List (Int × Item))
    (h : ∀ d : Int, lookupItem m1 d = lookupItem m2 d) (doc : Int) :
    buildRow ongId meta m1 doc = buildRow ongId meta m2 doc := by
  unfold buildRow
  rw [h doc]

/-! ## C10: duplicate doc_no keys keep only the last item -/

/-- C10: when the listing contains two items with the same doc_no in the
same batch (i1 before i2, i2 the last with that doc_no), the batch items
dict keeps only i2: the lookup at that doc_no returns i2, the dict's
lookups (and hence the built ledger) are exactly those of the listing
without i1, i1's folder is never among the copy sources (the dict's
values), and i1's presence in the scanned listing leaves the skip count
unchanged (it counts only parse failures). -/
theorem c10_duplicate_docno_last_wins (l m r : List Item) (i1 i2 : Item)
    (hd : i1.doc_no = i2.doc_no)
    (hr : ∀ j ∈ r, j.doc_no ≠ i2.doc_no)
    (hreg : i1.reg_type ≠ i2.reg_type)
    (hname : ∀ j, j ∈ l ++ m ++ (i2 :: r) → j.original_name ≠ i1.original_name) :
    lookupItem (itemsMapOf (l ++ i1 :: (m ++ i2 :: r))) i1.doc_no = some i2 ∧
    (∀ d : Int, lookupItem (itemsMapOf (l ++ i1 :: (m ++ i2 :: r))) d =
      lookupItem (itemsMapOf (l ++ (m ++ i2 :: r))) d) ∧
    (∀ (ongId : Nat) (meta : Meta),
      buildLedger ongId meta (itemsMapOf (l ++ i1 :: (m ++ i2 :: r))) =
      buildLedger ongId meta (itemsMapOf (l ++ (m ++ i2 :: r)))) ∧
    i1.original_name ∉
      (itemsMapOf (l ++ i1 :: (m ++ i2 :: r))).map (fun p => p.2.original_name) ∧
    (∀ (pre post : List String) (n1 : String),
      parse_folder_name n1 = some i1 →
      (scanFolders (pre ++ n1 :: post)).2 = (scanFolders (pre ++ post)).2) := by
  have hnr : r.reverse.find? (fun it => it.doc_no == i2.doc_no) = none := by
    rw [List.find?_eq_none]
    intro x hx
    rw [List.mem_reverse] at hx
    simp [hr x hx]
  have hpart1 : lookupItem (itemsMapOf (l ++ i1 :: (m ++ i2 :: r))) i1.doc_no =
      some i2 := by
    rw [hd, lookupItem_itemsMapOf]
    simp only [List.reverse_append, List.reverse_cons, List.append_assoc,
      List.find?_append, hnr, Option.none_or]
    simp
  have hpart2 : ∀ d : Int, lookupItem (itemsMapOf (l ++ i1 :: (m ++ i2 :: r))) d =
      lookupItem (itemsMapOf (l ++ (m ++ i2 :: r))) d := by
    intro d
    rw [lookupItem_itemsMapOf, lookupItem_itemsMapOf]
    simp only [List.reverse_append, List.reverse_cons, List.append_assoc,
      List.find?_append, List.find?_singleton]
    by_cases hdd : i2.doc_no = d
    · simp [hdd]
    · have h1 : (i2.doc_no == d) = false := by simp [hdd]
      have h2 : (i1.doc_no == d) = false := by rw [hd]; exact h1
      simp [h1, h2]
  refine ⟨hpart1, hpart2, ?_, ?_, ?_⟩
  · intro ongId meta
    unfold buildLedger
    refine List.map_congr_left ?_
    intro doc _
    exact buildRow_congr ongId meta _ _ hpart2 doc
  · intro hmem
    rw [List.mem_map] at hmem
    obtain ⟨p, hp, hpn⟩ := hmem
    obtain ⟨hpin, hpkey⟩ := mem_itemsMapOf _ p hp
    have hp2 : p.2 = i1 := by
      simp only [List.mem_append, List.mem_cons] at hpin
      rcases hpin with (hl | (rfl | hmm))
      · exact absurd hpn (hname p.2 (by simp [hl]))
      · rfl
      · rcases hmm with hm | rfl | hrr
        · exact absurd hpn (hname p.2 (by simp [hm]))
        · exact absurd hpn (hname p.2 (by simp))
        · exact absurd hpn (hname p.2 (by simp [hrr]))
    have hlk := lookupItem_of_mem _ (itemsMapOf_keys_pairwise _) p hp
    rw [hpkey, hp2] at hlk
    rw [hpart1] at hlk
    have hii : i2 = i1 := by injection hlk
    rw [hii] at hreg
    exact hreg rfl
  · intro pre post n1 hn1
    obtain ⟨_, hcount1⟩ := scanFolders_spec (pre ++ n1 :: post)
    obtain ⟨_, hcount2⟩ := scanFolders_spec (pre ++ post)
    rw [hcount1, hcount2, List.filter_append, List.filter_append, List.filter_cons]
    simp [hn1]

/-- Witness for C10: two one-element context-free items with doc_no 2;
the dict keeps the later eRegistration item. -/
theorem c10_duplicate_docno_last_wins_witness :
    itemB.doc_no = itemB2.doc_no ∧
    itemB.reg_type ≠ itemB2.reg_type ∧
    lookupItem (itemsMapOf ([] ++ itemB :: ([] ++ itemB2 :: []))) itemB.doc_no =
      some itemB2 :=
  ⟨by decide, by decide,
   (c10_duplicate_docno_last_wins [] [] [] itemB itemB2 (by decide) (by simp)
      (by decide) (by decide)).1⟩

end Restructure
